import Mathlib

/-!
Verification of the SNova rotation subsystem (quaternion / Euler-rotator /
transform synchronization), shallowly embedded over the real numbers.

Float arithmetic is idealized as exact real arithmetic; float literals keep
the decimal values written in the source.  `sinf`, `cosf`, `asinf`, `acosf`,
`atan2f`, `sqrtf` and `fmodf` are modelled by the corresponding exact real
functions (`atan2f` by `Complex.arg`, whose range `(-pi, pi]` matches the C
library function; `fmodf` by subtraction of the truncated quotient).
`Math::InvSqrt` is modelled as `1 / sqrt` per its own documentation.
-/

namespace SNova

noncomputable section

open Real

/-- Constant `PI` from GenMath.h, kept at its literal decimal value
`3.1415926535f`.  Note that it differs from the mathematical `Real.pi`. -/
def PI : ℝ := 3.1415926535

/-- Constant `PIOVER180` from GenMath.h. -/
def PIOVER180 : ℝ := PI / 180

/-- Constant `OVERPI` from GenMath.h. -/
def OVERPI : ℝ := 180 / PI

/-- Constant `SMALL_NUMBER` from GenMath.h (`1.e-8f`). -/
def SMALL_NUMBER : ℝ := 1e-8

/-- Constant `KINDA_SMALL_NUMBER` from GenMath.h (`1.e-4f`). -/
def KINDA_SMALL_NUMBER : ℝ := 1e-4

/-- Macro `DEG2RAD(deg)` from GenMath.h: `deg * PIOVER180`. -/
def DEG2RAD (deg : ℝ) : ℝ := deg * PIOVER180

/-- Macro `RAD2DEG(RAD)` from GenMath.h: `RAD * OVERPI`. -/
def RAD2DEG (rad : ℝ) : ℝ := rad * OVERPI

/-- Truncation toward zero, as performed by C `fmodf` on the quotient. -/
def truncToZero (x : ℝ) : ℤ := if 0 ≤ x then ⌊x⌋ else ⌈x⌉

/-- Model of C `fmodf a b`: `a - b * trunc (a / b)`; the result carries the
sign of `a`. -/
def fmodf (a b : ℝ) : ℝ := a - b * (truncToZero (a / b) : ℝ)

/-- Model of C `atan2f y x`: the argument of the complex number `x + y i`,
valued in `(-pi, pi]` like the C library function. -/
def atan2f (y x : ℝ) : ℝ := Complex.arg ⟨x, y⟩

namespace Math

/-- `Math::FloatEqual` from GenMath.h: `fabs(x - y) < tolerance`. -/
def FloatEqual (x y tolerance : ℝ) : Prop := |x - y| < tolerance

/-- `Math::InvSqrt` from GenMath.h; its documentation states that it returns
`1 / sqrt(number)` (the bit-twiddling approximation is idealized away). -/
def InvSqrt (num : ℝ) : ℝ := 1 / Real.sqrt num

end Math

/-- `Vector3D` from Vector3D.h: a 3-component vector. -/
structure Vector3D where
  x : ℝ
  y : ℝ
  z : ℝ

abbrev Vec3 := Vector3D

/-- `operator+(Vector3D, Vector3D)` from Vector3D.cpp. -/
def Vector3D.add (a b : Vec3) : Vec3 :=
  ⟨a.x + b.x, a.y + b.y, a.z + b.z⟩

/-- `operator*(Vector3D, float)` from Vector3D.cpp (componentwise scaling;
`float * Vec3` delegates to the same function). -/
def Vector3D.smul (s : ℝ) (v : Vec3) : Vec3 :=
  ⟨v.x * s, v.y * s, v.z * s⟩

/-- Dot product `operator*(Vec3, Vec3)` from Vector3D.cpp. -/
def Vector3D.dot (a b : Vec3) : ℝ := a.x * b.x + a.y * b.y + a.z * b.z

/-- Cross product `operator^(Vec3, Vec3)` from Vector3D.cpp. -/
def Vector3D.cross (a b : Vec3) : Vec3 :=
  ⟨a.y * b.z - b.y * a.z, a.z * b.x - b.z * a.x, a.x * b.y - b.x * a.y⟩

/-- `Vector3D::Equals` from Vector3D.h: componentwise comparison with
non-strict tolerance. -/
def Vector3D.Equals (a b : Vec3) (tolerance : ℝ) : Prop :=
  |a.x - b.x| ≤ tolerance ∧ |a.y - b.y| ≤ tolerance ∧ |a.z - b.z| ≤ tolerance

/-- `Quat` from Quat.h: the four scalar components (the bound-transform
back-pointer is modelled separately, see `QuatV` and `Transform`). -/
structure Quat where
  w : ℝ
  x : ℝ
  y : ℝ
  z : ℝ

/-- `Quat::Identity` (the default constructor's value). -/
def Quat.Identity : Quat := ⟨1, 0, 0, 0⟩

/-- Hamilton product `Quat::operator*(const Quat&)` from Quat.h. -/
def Quat.mul (p q : Quat) : Quat :=
  ⟨p.w * q.w - p.x * q.x - p.y * q.y - p.z * q.z,
   p.w * q.x + p.x * q.w + p.y * q.z - p.z * q.y,
   p.w * q.y - p.x * q.z + p.y * q.w + p.z * q.x,
   p.w * q.z + p.x * q.y - p.y * q.x + p.z * q.w⟩

/-- Componentwise sum `Quat::operator+` from Quat.h. -/
def Quat.add (p q : Quat) : Quat :=
  ⟨p.w + q.w, p.x + q.x, p.y + q.y, p.z + q.z⟩

/-- Componentwise difference `Quat::operator-` from Quat.h. -/
def Quat.sub (p q : Quat) : Quat :=
  ⟨p.w - q.w, p.x - q.x, p.y - q.y, p.z - q.z⟩

/-- Scalar scaling `Quat::operator*(float)` from Quat.h. -/
def Quat.smul (q : Quat) (scale : ℝ) : Quat :=
  ⟨q.w * scale, q.x * scale, q.y * scale, q.z * scale⟩

/-- Scalar division `Quat::operator/(float)` from Quat.h. -/
def Quat.sdiv (q : Quat) (scale : ℝ) : Quat :=
  ⟨q.w / scale, q.x / scale, q.y / scale, q.z / scale⟩

/-- Negation `Quat::operator-()` from Quat.h. -/
def Quat.neg (q : Quat) : Quat := ⟨-q.w, -q.x, -q.y, -q.z⟩

/-- Inner product `Quat::operator|` from Quat.h. -/
def Quat.dot (p q : Quat) : ℝ :=
  p.w * q.w + p.x * q.x + p.y * q.y + p.z * q.z

/-- `Quat::SizeSquared` from Quat.h. -/
def Quat.SizeSquared (q : Quat) : ℝ :=
  q.w * q.w + q.x * q.x + q.y * q.y + q.z * q.z

/-- `Quat::Equals` from Quat.h: componentwise `Math::FloatEqual`. -/
def Quat.Equals (p q : Quat) (tolerance : ℝ) : Prop :=
  Math.FloatEqual p.w q.w tolerance ∧ Math.FloatEqual p.x q.x tolerance ∧
    Math.FloatEqual p.y q.y tolerance ∧ Math.FloatEqual p.z q.z tolerance

/-- Threshold `THRESH_QUAT_NORMALIZED` from Quat.cpp (`0.01f`). -/
def THRESH_QUAT_NORMALIZED : ℝ := 0.01

/-- `Quat::IsNormalized` from Quat.cpp:
`fabs(1 - SizeSquared()) < THRESH_QUAT_NORMALIZED`. -/
def Quat.IsNormalized (q : Quat) : Prop :=
  |1 - q.SizeSquared| < THRESH_QUAT_NORMALIZED

/-- `Quat::Normalize(tolerance)` from Quat.h, as a function on the value:
rescale by `InvSqrt` when `SizeSquared >= tolerance`, else reset to
`Identity`. -/
def Quat.Normalize (q : Quat) (tolerance : ℝ) : Quat :=
  if tolerance ≤ q.SizeSquared then q.smul (Math.InvSqrt q.SizeSquared)
  else Quat.Identity

/-- `Quat::GetNormalized(tolerance)` from Quat.h (normalized copy). -/
def Quat.GetNormalized (q : Quat) (tolerance : ℝ) : Quat :=
  q.Normalize tolerance

/-- `Quat::Inverse` from Quat.h: the conjugate when `IsNormalized()`, else
`Quat::Identity` (non-normalized quaternions are not supported). -/
def Quat.Inverse (q : Quat) : Quat :=
  if |1 - q.SizeSquared| < THRESH_QUAT_NORMALIZED then ⟨q.w, -q.x, -q.y, -q.z⟩
  else Quat.Identity

/-- `Quat::EnforceShortestArcWith` from Quat.h, as a function on the value:
multiply all components by `+1` or `-1` according to the sign of the inner
product with `q`. -/
def Quat.EnforceShortestArcWith (p q : Quat) : Quat :=
  if 0 ≤ p.dot q then p.smul 1 else p.smul (-1)

/-- `Quat::RotateVector` from Quat.h:
`V + w * T + (Q x T)` with `Q = (x,y,z)` and `T = 2 (Q x V)`. -/
def Quat.RotateVector (q : Quat) (V : Vec3) : Vec3 :=
  (V.add ((Vector3D.smul q.w (Vector3D.smul 2 ((Vector3D.mk q.x q.y q.z).cross V))).add
    ((Vector3D.mk q.x q.y q.z).cross (Vector3D.smul 2 ((Vector3D.mk q.x q.y q.z).cross V)))))

/-- The axis/angle constructor `Quat::Quat(Vec3 Axis, float AngleRad)` from
Quat.cpp, with its engine-specific component remapping
`x = s * -Axis.z, y = s * -Axis.x, z = s * Axis.y, w = c`. -/
def Quat.fromAxisAngle (Axis : Vec3) (AngleRad : ℝ) : Quat :=
  ⟨Real.cos (0.5 * AngleRad),
   Real.sin (0.5 * AngleRad) * -Axis.z,
   Real.sin (0.5 * AngleRad) * -Axis.x,
   Real.sin (0.5 * AngleRad) * Axis.y⟩

/-- `Rotator` from Rotator.h: pitch/yaw/roll in degrees (the bound-transform
back-pointer is modelled separately, see `RotatorV` and `Transform`). -/
structure Rotator where
  pitch : ℝ
  yaw : ℝ
  roll : ℝ

/-- `Rotator::ZeroRotator` (the default constructor's value). -/
def Rotator.ZeroRotator : Rotator := ⟨0, 0, 0⟩

/-- `Rotator::ClampAxis` from Rotator.h: `fmodf` into `(-360, 360)`, then a
single shift into `[0, 360)`. -/
def Rotator.ClampAxis (angle : ℝ) : ℝ :=
  if fmodf angle 360 < 0 then fmodf angle 360 + 360 else fmodf angle 360

/-- `Rotator::NormalizeAxis` from Rotator.h: `fmodf` into `(-360, 360)`, then
a single shift toward `(-180, 180]`. -/
def Rotator.NormalizeAxis (angle : ℝ) : ℝ :=
  if 180 < fmodf angle 360 then fmodf angle 360 - 360
  else if fmodf angle 360 < -180 then fmodf angle 360 + 360
  else fmodf angle 360

/-- `Rotator::Equals` from Rotator.h: componentwise comparison of
`NormalizeAxis` of the differences. -/
def Rotator.Equals (a b : Rotator) (tolerance : ℝ) : Prop :=
  |Rotator.NormalizeAxis (a.pitch - b.pitch)| ≤ tolerance ∧
    |Rotator.NormalizeAxis (a.yaw - b.yaw)| ≤ tolerance ∧
    |Rotator.NormalizeAxis (a.roll - b.roll)| ≤ tolerance

/-- `Rotator::Quaternion` from Rotator.cpp: half-angle sine/cosine products
per axis with the engine-specific sign convention
(`DEG_TO_RAD_DIVIDED_BY_2 = (PI / 180) / 2`). -/
def Rotator.Quaternion (r : Rotator) : Quat :=
  ⟨Real.cos (r.roll * (PI / 180 / 2)) * Real.cos (r.pitch * (PI / 180 / 2)) *
        Real.cos (r.yaw * (PI / 180 / 2)) +
      Real.sin (r.roll * (PI / 180 / 2)) * Real.sin (r.pitch * (PI / 180 / 2)) *
        Real.sin (r.yaw * (PI / 180 / 2)),
   Real.cos (r.roll * (PI / 180 / 2)) * Real.sin (r.pitch * (PI / 180 / 2)) *
        Real.sin (r.yaw * (PI / 180 / 2)) -
      Real.sin (r.roll * (PI / 180 / 2)) * Real.cos (r.pitch * (PI / 180 / 2)) *
        Real.cos (r.yaw * (PI / 180 / 2)),
   -(Real.cos (r.roll * (PI / 180 / 2)) * Real.sin (r.pitch * (PI / 180 / 2)) *
        Real.cos (r.yaw * (PI / 180 / 2))) -
      Real.sin (r.roll * (PI / 180 / 2)) * Real.cos (r.pitch * (PI / 180 / 2)) *
        Real.sin (r.yaw * (PI / 180 / 2)),
   Real.cos (r.roll * (PI / 180 / 2)) * Real.cos (r.pitch * (PI / 180 / 2)) *
        Real.sin (r.yaw * (PI / 180 / 2)) -
      Real.sin (r.roll * (PI / 180 / 2)) * Real.sin (r.pitch * (PI / 180 / 2)) *
        Real.cos (r.yaw * (PI / 180 / 2))⟩

/-- Threshold `SINGULARITY_THRESHOLD` from `Quat::GetRotator` (Quat.cpp). -/
def SINGULARITY_THRESHOLD : ℝ := 0.4999995

/-- `Quat::GetRotator` from Quat.cpp: singularity-aware conversion to
pitch/yaw/roll with the `0.4999995` threshold on `z*x - w*y`. -/
def Quat.GetRotator (q : Quat) : Rotator :=
  if q.z * q.x - q.w * q.y < -SINGULARITY_THRESHOLD then
    ⟨-90,
     RAD2DEG (atan2f (2 * (q.w * q.z + q.x * q.y)) (1 - 2 * (q.y * q.y + q.z * q.z))),
     Rotator.NormalizeAxis
       (-(RAD2DEG (atan2f (2 * (q.w * q.z + q.x * q.y)) (1 - 2 * (q.y * q.y + q.z * q.z)))) -
         RAD2DEG (2 * atan2f q.x q.w))⟩
  else if SINGULARITY_THRESHOLD < q.z * q.x - q.w * q.y then
    ⟨90,
     RAD2DEG (atan2f (2 * (q.w * q.z + q.x * q.y)) (1 - 2 * (q.y * q.y + q.z * q.z))),
     Rotator.NormalizeAxis
       (RAD2DEG (atan2f (2 * (q.w * q.z + q.x * q.y)) (1 - 2 * (q.y * q.y + q.z * q.z))) -
         RAD2DEG (2 * atan2f q.x q.w))⟩
  else
    ⟨RAD2DEG (Real.arcsin (2 * (q.z * q.x - q.w * q.y))),
     RAD2DEG (atan2f (2 * (q.w * q.z + q.x * q.y)) (1 - 2 * (q.y * q.y + q.z * q.z))),
     RAD2DEG (atan2f (-2 * (q.w * q.x + q.y * q.z)) (1 - 2 * (q.x * q.x + q.y * q.y)))⟩

/-- `Matrix3x3` from Matrix3x3.h, with `mIJ` standing for `m2[I][J]`. -/
structure Matrix3x3 where
  m00 : ℝ
  m01 : ℝ
  m02 : ℝ
  m10 : ℝ
  m11 : ℝ
  m12 : ℝ
  m20 : ℝ
  m21 : ℝ
  m22 : ℝ

/-- `operator*(Matrix3x3, Vec3)` from Matrix3x3.cpp.  Note the source sums
`m2[k][i] * v[k]`, i.e. the vector is multiplied by the transpose of the
row-major entry grid. -/
def Matrix3x3.mulVec (m : Matrix3x3) (v : Vec3) : Vec3 :=
  ⟨m.m00 * v.x + m.m10 * v.y + m.m20 * v.z,
   m.m01 * v.x + m.m11 * v.y + m.m21 * v.z,
   m.m02 * v.x + m.m12 * v.y + m.m22 * v.z⟩

/-- `Rotator::Matrix` from Rotator.cpp, with the reordered axis mapping
`newPitch = yaw`, `newYaw = -roll`, `newRoll = pitch`. -/
def Rotator.Matrix (r : Rotator) : Matrix3x3 :=
  ⟨Real.cos (DEG2RAD r.yaw) * Real.cos (DEG2RAD (-r.roll)),
   Real.cos (DEG2RAD r.yaw) * Real.sin (DEG2RAD (-r.roll)),
   Real.sin (DEG2RAD r.yaw),
   Real.sin (DEG2RAD r.pitch) * Real.sin (DEG2RAD r.yaw) * Real.cos (DEG2RAD (-r.roll)) -
     Real.cos (DEG2RAD r.pitch) * Real.sin (DEG2RAD (-r.roll)),
   Real.sin (DEG2RAD r.pitch) * Real.sin (DEG2RAD r.yaw) * Real.sin (DEG2RAD (-r.roll)) +
     Real.cos (DEG2RAD r.pitch) * Real.cos (DEG2RAD (-r.roll)),
   -(Real.sin (DEG2RAD r.pitch) * Real.cos (DEG2RAD r.yaw)),
   -(Real.cos (DEG2RAD r.pitch) * Real.sin (DEG2RAD r.yaw) * Real.cos (DEG2RAD (-r.roll)) +
     Real.sin (DEG2RAD r.pitch) * Real.sin (DEG2RAD (-r.roll))),
   Real.cos (DEG2RAD (-r.roll)) * Real.sin (DEG2RAD r.pitch) -
     Real.cos (DEG2RAD r.pitch) * Real.sin (DEG2RAD r.yaw) * Real.sin (DEG2RAD (-r.roll)),
   Real.cos (DEG2RAD r.pitch) * Real.cos (DEG2RAD r.yaw)⟩

/-- `Rotator::RotateVector` from Rotator.cpp: multiply by the matrix form. -/
def Rotator.RotateVector (r : Rotator) (v : Vec3) : Vec3 :=
  r.Matrix.mulVec v

/-- Threshold `DOT_THRESHOLD` from `Quat::Slerp_NotNormalized` (Quat.cpp). -/
def DOT_THRESHOLD : ℝ := 0.9999

/-- Local `cosSum` of `Quat::Slerp_NotNormalized` (Quat.cpp): the raw inner
product, sign-flipped to be non-negative so that the shorter arc is taken. -/
def slerpCosSum (q1 q2 : Quat) : ℝ :=
  if 0 ≤ q1.dot q2 then q1.dot q2 else -(q1.dot q2)

/-- Local `scale0` of `Quat::Slerp_NotNormalized` (Quat.cpp). -/
def slerpScale0 (q1 q2 : Quat) (t : ℝ) : ℝ :=
  if slerpCosSum q1 q2 < DOT_THRESHOLD then
    Real.sin ((1 - t) * Real.arccos (slerpCosSum q1 q2)) *
      (1 / Real.sin (Real.arccos (slerpCosSum q1 q2)))
  else 1 - t

/-- Local `scale1` of `Quat::Slerp_NotNormalized` (Quat.cpp), before the
shorter-arc sign flip is re-applied. -/
def slerpScale1Pre (q1 q2 : Quat) (t : ℝ) : ℝ :=
  if slerpCosSum q1 q2 < DOT_THRESHOLD then
    Real.sin (t * Real.arccos (slerpCosSum q1 q2)) *
      (1 / Real.sin (Real.arccos (slerpCosSum q1 q2)))
  else t

/-- Local `scale1` of `Quat::Slerp_NotNormalized` (Quat.cpp), after the
shorter-arc sign flip (`scale1 = (rawCosSum >= 0) ? scale1 : -scale1`). -/
def slerpScale1 (q1 q2 : Quat) (t : ℝ) : ℝ :=
  if 0 ≤ q1.dot q2 then slerpScale1Pre q1 q2 t else -(slerpScale1Pre q1 q2 t)

/-- `Quat::Slerp_NotNormalized` from Quat.cpp: shorter-arc alignment via
sign flip, sine-weighted interpolation below the `0.9999` dot threshold,
linear interpolation above it. -/
def Quat.Slerp_NotNormalized (q1 q2 : Quat) (t : ℝ) : Quat :=
  Quat.add (q1.smul (slerpScale0 q1 q2 t)) (q2.smul (slerpScale1 q1 q2 t))

/-- `Quat::Slerp` from Quat.h: `Slerp_NotNormalized(q1, q2, t).GetNormalized()`. -/
def Quat.Slerp (q1 q2 : Quat) (t : ℝ) : Quat :=
  (Quat.Slerp_NotNormalized q1 q2 t).GetNormalized SMALL_NUMBER

/-- Modelled from the spec: the engine's 4x4 matrix type `Mtx44`
(Matrix4x4.h is not part of the selected sources). -/
abbrev Mtx44 := Matrix (Fin 4) (Fin 4) ℝ

/-- Modelled from the spec: embedding of a 3x3 rotation matrix into a 4x4
homogeneous matrix (`Mtx44 rotMtx{ rotator.Matrix() }` in Transform.cpp). -/
def Mtx44FromMtx33 (m : Matrix3x3) : Mtx44 :=
  Matrix.of
    ![![m.m00, m.m01, m.m02, 0],
      ![m.m10, m.m11, m.m12, 0],
      ![m.m20, m.m21, m.m22, 0],
      ![0, 0, 0, 1]]

/-- Modelled from the spec: `Mtx44Scale` (Matrix4x4.h is not part of the
selected sources) as the diagonal scale matrix. -/
def Mtx44Scale (x y z : ℝ) : Mtx44 :=
  Matrix.of
    ![![x, 0, 0, 0],
      ![0, y, 0, 0],
      ![0, 0, z, 0],
      ![0, 0, 0, 1]]

/-- Modelled from the spec: `Mtx44Translate` (Matrix4x4.h is not part of the
selected sources) as the homogeneous translation matrix. -/
def Mtx44Translate (x y z : ℝ) : Mtx44 :=
  Matrix.of
    ![![1, 0, 0, x],
      ![0, 1, 0, y],
      ![0, 0, 1, z],
      ![0, 0, 0, 1]]

/-- `Transform` from Transform.h, restricted to the rotation subsystem's
state: position, scale, the bound quaternion `rotation`, the bound rotator
`rotator`, and the composed matrix `mtx`.  The two back-pointers
`mp_BoundTransform` of `rotation` and `rotator` point at this transform, so
mutations of the bound representations are modelled as functions on the
whole `Transform`. -/
structure Transform where
  position : Vec3
  scale : Vec3
  rotation : Quat
  rotator : Rotator
  mtx : Mtx44

/-- `Transform::UpdateMtx` from Transform.cpp:
`mtx = transMtx * (rotMtx * scaleMtx)` with the rotation matrix taken from
the Euler `rotator` (`Mtx44 rotMtx{ rotator.Matrix() }`), not from the
quaternion.  (`Notify()` has no modelled state.) -/
def Transform.UpdateMtx (t : Transform) : Transform :=
  { t with
    mtx := Mtx44Translate t.position.x t.position.y t.position.z *
      (Mtx44FromMtx33 t.rotator.Matrix * Mtx44Scale t.scale.x t.scale.y t.scale.z) }

/-- `Quat::UpdateBoundTransform` from Quat.cpp, for the transform-bound
quaternion `t.rotation`: overwrite the owner's rotator fields with
`GetRotator()` of the quaternion, then `UpdateMtx()`. -/
def Transform.quatUpdateBoundTransform (t : Transform) : Transform :=
  Transform.UpdateMtx
    { t with rotator := ⟨t.rotation.GetRotator.pitch, t.rotation.GetRotator.yaw,
        t.rotation.GetRotator.roll⟩ }

/-- `Rotator::UpdateBoundTransform` from Rotator.cpp, for the transform-bound
rotator `t.rotator`: overwrite the owner's quaternion fields with
`Quaternion()` of the rotator, then `UpdateMtx()`. -/
def Transform.rotatorUpdateBoundTransform (t : Transform) : Transform :=
  Transform.UpdateMtx
    { t with rotation := ⟨t.rotator.Quaternion.w, t.rotator.Quaternion.x,
        t.rotator.Quaternion.y, t.rotator.Quaternion.z⟩ }

/-- `Quat::operator=` applied to the bound quaternion `t.rotation`: copy the
four components (never the binding), then `UpdateBoundTransform()`. -/
def Transform.quatAssign (t : Transform) (q : Quat) : Transform :=
  Transform.quatUpdateBoundTransform { t with rotation := ⟨q.w, q.x, q.y, q.z⟩ }

/-- `Quat::operator+=` applied to the bound quaternion `t.rotation`. -/
def Transform.quatAddAssign (t : Transform) (q : Quat) : Transform :=
  Transform.quatUpdateBoundTransform { t with rotation := t.rotation.add q }

/-- `Quat::operator-=` applied to the bound quaternion `t.rotation`. -/
def Transform.quatSubAssign (t : Transform) (q : Quat) : Transform :=
  Transform.quatUpdateBoundTransform { t with rotation := t.rotation.sub q }

/-- `Quat::operator*=(const Quat&)` applied to the bound quaternion
`t.rotation`: `*this = *this * q` (which itself runs the owner update
through `operator=`), then `UpdateBoundTransform()` again. -/
def Transform.quatMulAssign (t : Transform) (q : Quat) : Transform :=
  Transform.quatUpdateBoundTransform (Transform.quatAssign t (t.rotation.mul q))

/-- `Quat::operator*=(float)` applied to the bound quaternion `t.rotation`. -/
def Transform.quatScaleAssign (t : Transform) (scale : ℝ) : Transform :=
  Transform.quatUpdateBoundTransform { t with rotation := t.rotation.smul scale }

/-- `Quat::operator/=(float)` applied to the bound quaternion `t.rotation`. -/
def Transform.quatDivAssign (t : Transform) (scale : ℝ) : Transform :=
  Transform.quatUpdateBoundTransform { t with rotation := t.rotation.sdiv scale }

/-- `Quat::Normalize(tolerance)` applied to the bound quaternion
`t.rotation`.  In the large-enough branch the components are rescaled in
place and NO owner update happens; in the degenerate branch
`*this = Quat::Identity` runs through `operator=`, which does update the
owner. -/
def Transform.quatNormalize (t : Transform) (tolerance : ℝ) : Transform :=
  if tolerance ≤ t.rotation.SizeSquared then
    { t with rotation := t.rotation.smul (Math.InvSqrt t.rotation.SizeSquared) }
  else Transform.quatAssign t Quat.Identity

/-- `Rotator::operator=` applied to the bound rotator `t.rotator`: copy the
three components (never the binding), then `UpdateBoundTransform()`. -/
def Transform.rotatorAssign (t : Transform) (r : Rotator) : Transform :=
  Transform.rotatorUpdateBoundTransform { t with rotator := ⟨r.pitch, r.yaw, r.roll⟩ }

/-- `Rotator::operator+=` applied to the bound rotator `t.rotator`. -/
def Transform.rotatorAddAssign (t : Transform) (r : Rotator) : Transform :=
  Transform.rotatorUpdateBoundTransform
    { t with rotator := ⟨t.rotator.pitch + r.pitch, t.rotator.yaw + r.yaw,
        t.rotator.roll + r.roll⟩ }

/-- `Rotator::operator-=` applied to the bound rotator `t.rotator`. -/
def Transform.rotatorSubAssign (t : Transform) (r : Rotator) : Transform :=
  Transform.rotatorUpdateBoundTransform
    { t with rotator := ⟨t.rotator.pitch - r.pitch, t.rotator.yaw - r.yaw,
        t.rotator.roll - r.roll⟩ }

/-- `Rotator::operator*=(float)` applied to the bound rotator `t.rotator`. -/
def Transform.rotatorScaleAssign (t : Transform) (scale : ℝ) : Transform :=
  Transform.rotatorUpdateBoundTransform
    { t with rotator := ⟨t.rotator.pitch * scale, t.rotator.yaw * scale,
        t.rotator.roll * scale⟩ }

/-- `Rotator::Add(deltaPitch, deltaYaw, deltaRoll)` applied to the bound
rotator `t.rotator`. -/
def Transform.rotatorAdd (t : Transform) (dp dy dr : ℝ) : Transform :=
  Transform.rotatorUpdateBoundTransform
    { t with rotator := ⟨t.rotator.pitch + dp, t.rotator.yaw + dy, t.rotator.roll + dr⟩ }

/-- The field-level synchronization contract after a quaternion-side
mutation: the owner's rotator equals `GetRotator()` of the owned quaternion,
and the composed matrix is the translate-rotate-scale product built from the
ROTATOR's matrix form. -/
def Transform.SyncedFromQuat (t : Transform) : Prop :=
  t.rotator = t.rotation.GetRotator ∧
    t.mtx = Mtx44Translate t.position.x t.position.y t.position.z *
      (Mtx44FromMtx33 t.rotator.Matrix * Mtx44Scale t.scale.x t.scale.y t.scale.z)

/-- The field-level synchronization contract after a rotator-side mutation:
the owner's quaternion equals `Quaternion()` of the owned rotator, and the
composed matrix is built from the ROTATOR's matrix form. -/
def Transform.SyncedFromRotator (t : Transform) : Prop :=
  t.rotation = t.rotator.Quaternion ∧
    t.mtx = Mtx44Translate t.position.x t.position.y t.position.z *
      (Mtx44FromMtx33 t.rotator.Matrix * Mtx44Scale t.scale.x t.scale.y t.scale.z)

/-- `Quat` together with its `mp_BoundTransform` back-pointer, abstracted to
a flag recording whether the pointer is non-null.  Used to state the
copy/assignment binding semantics. -/
structure QuatV where
  w : ℝ
  x : ℝ
  y : ℝ
  z : ℝ
  mp_BoundTransform : Bool

/-- The copy constructor `Quat::Quat(const Quat&)` from Quat.h: only the four
scalar components are copied; `mp_BoundTransform` keeps its `nullptr`
default initializer. -/
def QuatV.copyConstruct (q : QuatV) : QuatV :=
  ⟨q.w, q.x, q.y, q.z, false⟩

/-- `Quat::operator=` from Quat.h at the binding level: the four components
come from the source, `mp_BoundTransform` is deliberately not copied
("Do not shallow copy because mp_BoundRotator is unique"). -/
def QuatV.assign (dest src : QuatV) : QuatV :=
  ⟨src.w, src.x, src.y, src.z, dest.mp_BoundTransform⟩

/-- `Rotator` together with its `mp_BoundTransform` back-pointer, abstracted
to a flag recording whether the pointer is non-null. -/
structure RotatorV where
  pitch : ℝ
  yaw : ℝ
  roll : ℝ
  mp_BoundTransform : Bool

/-- `Rotator::operator=` from Rotator.h at the binding level: the three
components come from the source, `mp_BoundTransform` is deliberately not
copied ("Do not shallow copy mp_BoundQuat because our transform's quat is
unique"). -/
def RotatorV.assign (dest src : RotatorV) : RotatorV :=
  ⟨src.pitch, src.yaw, src.roll, dest.mp_BoundTransform⟩

/-- Model of `std::ifstream` for the line-oriented transform text format:
a list of lines and a read position (`tellg`/`seekg` act on the position). -/
structure IFStream where
  lines : List String
  pos : ℕ

/-- `tellg()`: the current read position. -/
def IFStream.tellg (s : IFStream) : ℕ := s.pos

/-- `std::getline(file, input)`: take the line at the read position and
advance it. -/
def IFStream.getline (s : IFStream) : String × IFStream :=
  (s.lines.getD s.pos "", ⟨s.lines, s.pos + 1⟩)

/-- `seekg(t)`: restore a previously saved read position. -/
def IFStream.seekg (s : IFStream) (p : ℕ) : IFStream := ⟨s.lines, p⟩

/-- Whitespace tokenization of one line, modelling repeated `is >> tok`
extractions from an `istringstream` over the line. -/
def tokenizeLine (line : String) : List String :=
  ((line.toList.splitOnP (fun c => c = ' ')).map List.asString).filter
    (fun tok => ¬ tok.isEmpty)

/-- The rotation part of `Transform::Deserialize` from Transform.cpp: save
`tellg`, `getline` one line, extract its first token; if it is not
`"ROTATION:"`, `seekg` back and return with the rotation untouched (legacy
save files); otherwise read pitch/yaw/roll (float extraction from text is
the external `parseFloat`), run `rotator.UpdateBoundTransform()` and
`UpdateMtx()`. -/
def Transform.deserializeRotation (parseFloat : String → ℝ) (t : Transform)
    (s : IFStream) : Transform × IFStream :=
  if (tokenizeLine s.getline.1).headD "" ≠ "ROTATION:" then
    (t, (s.getline.2).seekg s.tellg)
  else
    (Transform.UpdateMtx
      (Transform.rotatorUpdateBoundTransform
        { t with rotator := ⟨parseFloat ((tokenizeLine (s.getline.1)).getD 1 ""),
            parseFloat ((tokenizeLine (s.getline.1)).getD 2 ""),
            parseFloat ((tokenizeLine (s.getline.1)).getD 3 "")⟩ }),
      s.getline.2)

/-- The rotation line written by `Transform::Serialize` from Transform.cpp:
`"ROTATION: " << pitch << " " << yaw << " " << roll`, with `showFloat` the
external number-to-text rendering of `operator<<`. -/
def Transform.serializeRotationLine (showFloat : ℝ → String) (t : Transform) : String :=
  "ROTATION: " ++ showFloat t.rotator.pitch ++ " " ++ showFloat t.rotator.yaw ++ " " ++
    showFloat t.rotator.roll

/-! ### Theorems -/

/-- Claim C9: for every pair of quaternions `p`, `q`, the result of
`p.EnforceShortestArcWith(q)` is either `p` itself or its componentwise
negation `-p` (hence the same physical rotation), and its inner product with
`q` is non-negative. -/
theorem c9_enforce_shortest_arc (p q : Quat) :
    (p.EnforceShortestArcWith q = p ∨ p.EnforceShortestArcWith q = p.neg) ∧
      0 ≤ (p.EnforceShortestArcWith q).dot q := by
  obtain ⟨pw, px, py, pz⟩ := p
  obtain ⟨qw, qx, qy, qz⟩ := q
  simp only [Quat.EnforceShortestArcWith, Quat.dot, Quat.smul, Quat.neg]
  split_ifs with h
  · refine ⟨Or.inl (by norm_num), ?_⟩
    dsimp only
    nlinarith [h]
  · push_neg at h
    refine ⟨Or.inr (by norm_num), ?_⟩
    dsimp only
    nlinarith [h.le]

/-- Claim C10: copy construction and assignment of `Quat` and `Rotator`
transfer only the scalar components, never the transform binding: a
copy-constructed `Quat` is unbound, and assignment keeps the destination's
binding (not the source's) while the bound assignment operators trigger the
owner update. -/
theorem c10_copy_binding_semantics (q dest src : QuatV) (rdest rsrc : RotatorV)
    (t : Transform) (p : Quat) (r : Rotator) :
    (QuatV.copyConstruct q).mp_BoundTransform = false ∧
      (QuatV.copyConstruct q).w = q.w ∧ (QuatV.copyConstruct q).x = q.x ∧
      (QuatV.copyConstruct q).y = q.y ∧ (QuatV.copyConstruct q).z = q.z ∧
      (QuatV.assign dest src).mp_BoundTransform = dest.mp_BoundTransform ∧
      (QuatV.assign dest src).w = src.w ∧ (QuatV.assign dest src).x = src.x ∧
      (QuatV.assign dest src).y = src.y ∧ (QuatV.assign dest src).z = src.z ∧
      (RotatorV.assign rdest rsrc).mp_BoundTransform = rdest.mp_BoundTransform ∧
      (RotatorV.assign rdest rsrc).pitch = rsrc.pitch ∧
      (RotatorV.assign rdest rsrc).yaw = rsrc.yaw ∧
      (RotatorV.assign rdest rsrc).roll = rsrc.roll ∧
      Transform.quatAssign t p =
        Transform.quatUpdateBoundTransform { t with rotation := ⟨p.w, p.x, p.y, p.z⟩ } ∧
      Transform.rotatorAssign t r =
        Transform.rotatorUpdateBoundTransform
          { t with rotator := ⟨r.pitch, r.yaw, r.roll⟩ } :=
  ⟨rfl, rfl, rfl, rfl, rfl, rfl, rfl, rfl, rfl, rfl, rfl, rfl, rfl, rfl, rfl, rfl⟩

/-- Claim C7: for every quaternion of unit size, the Hamilton product with
its `Inverse()` is exactly the identity quaternion; and whenever
`|1 - SizeSquared| >= 0.01` (not normalized), `Inverse()` returns the
identity quaternion instead of an inverse, with no error signal. -/
theorem c7_inverse_identity (q : Quat) :
    (q.SizeSquared = 1 → Quat.mul q q.Inverse = Quat.Identity) ∧
      (THRESH_QUAT_NORMALIZED ≤ |1 - q.SizeSquared| → q.Inverse = Quat.Identity) := by
  constructor
  · intro h
    have hn : |1 - q.SizeSquared| < THRESH_QUAT_NORMALIZED := by
      rw [h]; norm_num [THRESH_QUAT_NORMALIZED]
    obtain ⟨w, x, y, z⟩ := q
    unfold Quat.SizeSquared at h
    simp only at h
    unfold Quat.Inverse
    rw [if_pos hn]
    unfold Quat.mul Quat.Identity
    simp only [Quat.mk.injEq]
    exact ⟨by linear_combination h, by ring, by ring, by ring⟩
  · intro h
    unfold Quat.Inverse
    rw [if_neg (not_lt.mpr h)]

/-- Witness for C7 at the unit quaternion `(0.6, 0.8, 0, 0)` and at the
non-normalized quaternion `(2, 0, 0, 0)`. -/
theorem c7_inverse_identity_witness :
    Quat.SizeSquared ⟨0.6, 0.8, 0, 0⟩ = 1 ∧
      Quat.mul ⟨0.6, 0.8, 0, 0⟩ (Quat.Inverse ⟨0.6, 0.8, 0, 0⟩) = Quat.Identity ∧
      THRESH_QUAT_NORMALIZED ≤ |1 - Quat.SizeSquared ⟨2, 0, 0, 0⟩| ∧
      Quat.Inverse ⟨2, 0, 0, 0⟩ = Quat.Identity :=
  ⟨by norm_num [Quat.SizeSquared],
   (c7_inverse_identity _).1 (by norm_num [Quat.SizeSquared]),
   by norm_num [Quat.SizeSquared, THRESH_QUAT_NORMALIZED],
   (c7_inverse_identity _).2
     (by norm_num [Quat.SizeSquared, THRESH_QUAT_NORMALIZED])⟩

/-- Claim C5: `GetRotator` computes the singularity test `z*x - w*y`; below
`-0.4999995` the pitch is exactly `-90` with yaw/roll from the degenerate
atan2 formula, above `0.4999995` the pitch is exactly `90` likewise, and
otherwise the pitch is `asin(2 * singularityTest)` converted to degrees. -/
theorem c5_getRotator_singularity (q : Quat) :
    (q.z * q.x - q.w * q.y < -SINGULARITY_THRESHOLD →
      q.GetRotator.pitch = -90 ∧
        q.GetRotator.yaw =
          RAD2DEG (atan2f (2 * (q.w * q.z + q.x * q.y)) (1 - 2 * (q.y * q.y + q.z * q.z))) ∧
        q.GetRotator.roll =
          Rotator.NormalizeAxis (-(q.GetRotator.yaw) - RAD2DEG (2 * atan2f q.x q.w))) ∧
    (SINGULARITY_THRESHOLD < q.z * q.x - q.w * q.y →
      q.GetRotator.pitch = 90 ∧
        q.GetRotator.yaw =
          RAD2DEG (atan2f (2 * (q.w * q.z + q.x * q.y)) (1 - 2 * (q.y * q.y + q.z * q.z))) ∧
        q.GetRotator.roll =
          Rotator.NormalizeAxis (q.GetRotator.yaw - RAD2DEG (2 * atan2f q.x q.w))) ∧
    (-SINGULARITY_THRESHOLD ≤ q.z * q.x - q.w * q.y →
      q.z * q.x - q.w * q.y ≤ SINGULARITY_THRESHOLD →
      q.GetRotator.pitch = RAD2DEG (Real.arcsin (2 * (q.z * q.x - q.w * q.y)))) := by
  have hT : (0:ℝ) < SINGULARITY_THRESHOLD := by norm_num [SINGULARITY_THRESHOLD]
  refine ⟨fun h => ?_, fun h => ?_, fun h1 h2 => ?_⟩
  · unfold Quat.GetRotator
    rw [if_pos h]
    exact ⟨rfl, rfl, rfl⟩
  · unfold Quat.GetRotator
    rw [if_neg (by linarith), if_pos h]
    exact ⟨rfl, rfl, rfl⟩
  · unfold Quat.GetRotator
    rw [if_neg (by linarith), if_neg (by linarith)]

/-- Witness for C5 at quaternions hitting the positive pole, the negative
pole, and the regular branch. -/
theorem c5_getRotator_singularity_witness :
    (SINGULARITY_THRESHOLD <
        (Quat.mk 0 1 0 1).z * (Quat.mk 0 1 0 1).x -
          (Quat.mk 0 1 0 1).w * (Quat.mk 0 1 0 1).y ∧
      (Quat.mk 0 1 0 1).GetRotator.pitch = 90) ∧
    ((Quat.mk 0 1 0 (-1)).z * (Quat.mk 0 1 0 (-1)).x -
          (Quat.mk 0 1 0 (-1)).w * (Quat.mk 0 1 0 (-1)).y < -SINGULARITY_THRESHOLD ∧
      (Quat.mk 0 1 0 (-1)).GetRotator.pitch = -90) ∧
    Quat.Identity.GetRotator.pitch =
      RAD2DEG (Real.arcsin (2 * (Quat.Identity.z * Quat.Identity.x -
        Quat.Identity.w * Quat.Identity.y))) := by
  have h1 : SINGULARITY_THRESHOLD <
      (Quat.mk 0 1 0 1).z * (Quat.mk 0 1 0 1).x -
        (Quat.mk 0 1 0 1).w * (Quat.mk 0 1 0 1).y := by
    norm_num [SINGULARITY_THRESHOLD]
  have h2 : (Quat.mk 0 1 0 (-1)).z * (Quat.mk 0 1 0 (-1)).x -
      (Quat.mk 0 1 0 (-1)).w * (Quat.mk 0 1 0 (-1)).y < -SINGULARITY_THRESHOLD := by
    norm_num [SINGULARITY_THRESHOLD]
  have h3 : -SINGULARITY_THRESHOLD ≤ Quat.Identity.z * Quat.Identity.x -
      Quat.Identity.w * Quat.Identity.y := by
    norm_num [SINGULARITY_THRESHOLD, Quat.Identity]
  have h4 : Quat.Identity.z * Quat.Identity.x - Quat.Identity.w * Quat.Identity.y ≤
      SINGULARITY_THRESHOLD := by
    norm_num [SINGULARITY_THRESHOLD, Quat.Identity]
  exact ⟨⟨h1, ((c5_getRotator_singularity _).2.1 h1).1⟩,
    ⟨h2, ((c5_getRotator_singularity _).1 h2).1⟩,
    (c5_getRotator_singularity _).2.2 h3 h4⟩

/-- Claim C8: during transform deserialization the rotation is read from one
line token-led by `"ROTATION:"`; when that label token is absent, the read
position is restored to its value before the line was consumed and the
rotation state is left untouched (legacy save files), with no error; when
the label is present, pitch/yaw/roll are read from the following tokens and
propagated through the owner update. -/
theorem c8_deserialize_rotation (parseFloat : String → ℝ) (t : Transform) (s : IFStream) :
    ((tokenizeLine s.getline.1).headD "" ≠ "ROTATION:" →
      Transform.deserializeRotation parseFloat t s = (t, s)) ∧
    ((tokenizeLine s.getline.1).headD "" = "ROTATION:" →
      Transform.deserializeRotation parseFloat t s =
        (Transform.UpdateMtx
          (Transform.rotatorUpdateBoundTransform
            { t with rotator := ⟨parseFloat ((tokenizeLine s.getline.1).getD 1 ""),
                parseFloat ((tokenizeLine s.getline.1).getD 2 ""),
                parseFloat ((tokenizeLine s.getline.1).getD 3 "")⟩ }),
          s.getline.2)) := by
  constructor
  · intro h
    unfold Transform.deserializeRotation
    rw [if_pos h]
    obtain ⟨lines, pos⟩ := s
    rfl
  · intro h
    unfold Transform.deserializeRotation
    rw [if_neg (not_not_intro h)]

/-- Witness for C8 on a legacy stream whose next line is a different
section header, and on a well-formed rotation line. -/
theorem c8_deserialize_rotation_witness :
    ((tokenizeLine (IFStream.mk ["[TRANSFORM]"] 0).getline.1).headD "" ≠ "ROTATION:" ∧
      Transform.deserializeRotation (fun _ => 0)
          ⟨⟨0, 0, 0⟩, ⟨1, 1, 1⟩, Quat.Identity, Rotator.ZeroRotator, 1⟩
          ⟨["[TRANSFORM]"], 0⟩ =
        (⟨⟨0, 0, 0⟩, ⟨1, 1, 1⟩, Quat.Identity, Rotator.ZeroRotator, 1⟩,
          ⟨["[TRANSFORM]"], 0⟩)) := by
  have h : (tokenizeLine (IFStream.mk ["[TRANSFORM]"] 0).getline.1).headD "" ≠
      "ROTATION:" := by decide
  exact ⟨h, (c8_deserialize_rotation (fun _ => 0) _ _).1 h⟩

/-- Range of the `fmodf _ 360` reduction for non-negative inputs. -/
theorem fmodf_bounds_of_nonneg (a : ℝ) (ha : 0 ≤ a) :
    0 ≤ fmodf a 360 ∧ fmodf a 360 < 360 := by
  have h0 : (0:ℝ) ≤ a / 360 := by positivity
  unfold fmodf truncToZero
  rw [if_pos h0]
  have hf1 : ((⌊a / 360⌋ : ℤ) : ℝ) ≤ a / 360 := Int.floor_le _
  have hf2 : a / 360 < (⌊a / 360⌋ : ℝ) + 1 := Int.lt_floor_add_one _
  constructor <;> linarith

/-- Range of the `fmodf _ 360` reduction for negative inputs. -/
theorem fmodf_bounds_of_neg (a : ℝ) (ha : a < 0) :
    -360 < fmodf a 360 ∧ fmodf a 360 ≤ 0 := by
  have h0 : ¬ (0:ℝ) ≤ a / 360 := by
    rw [not_le]
    exact div_neg_of_neg_of_pos ha (by norm_num)
  unfold fmodf truncToZero
  rw [if_neg h0]
  have hc1 : a / 360 ≤ ((⌈a / 360⌉ : ℤ) : ℝ) := Int.le_ceil _
  have hc2 : ((⌈a / 360⌉ : ℤ) : ℝ) < a / 360 + 1 := Int.ceil_lt_add_one _
  constructor <;> linarith

/-- Claim C4 (amended): for every angle, `ClampAxis` returns a value in the
half-open interval `[0, 360)`, and `NormalizeAxis` returns a value in the
CLOSED interval `[-180, 180]` (the lower endpoint `-180` is attained, so the
claimed half-open interval `(-180, 180]` is corrected to the closed one);
both are computed by modulo-360 reduction followed by a single boundary
correction. -/
theorem c4_axis_ranges (angle : ℝ) :
    Rotator.ClampAxis angle ∈ Set.Ico (0:ℝ) 360 ∧
      Rotator.NormalizeAxis angle ∈ Set.Icc (-180:ℝ) 180 := by
  have hb : -360 < fmodf angle 360 ∧ fmodf angle 360 < 360 := by
    rcases le_or_lt 0 angle with ha | ha
    · have h := fmodf_bounds_of_nonneg angle ha
      exact ⟨by linarith [h.1], h.2⟩
    · have h := fmodf_bounds_of_neg angle ha
      exact ⟨h.1, by linarith [h.2]⟩
  obtain ⟨hlo, hhi⟩ := hb
  constructor
  · unfold Rotator.ClampAxis
    split_ifs with h
    · exact ⟨by linarith, by linarith⟩
    · exact ⟨by linarith [not_lt.mp h], by linarith⟩
  · unfold Rotator.NormalizeAxis
    split_ifs with h1 h2
    · exact ⟨by linarith, by linarith⟩
    · exact ⟨by linarith, by linarith⟩
    · exact ⟨by linarith [not_lt.mp h2], by linarith [not_lt.mp h1]⟩

/-- Counterexample for C4 as stated: `NormalizeAxis(-180)` evaluates to
`-180`, which is NOT in the claimed half-open interval `(-180, 180]`. -/
theorem c4_normalizeAxis_boundary_counterexample :
    Rotator.NormalizeAxis (-180) ∉ Set.Ioc (-180 : ℝ) 180 := by
  have hf : fmodf (-180) 360 = -180 := by
    unfold fmodf truncToZero
    rw [if_neg (by norm_num)]
    norm_num
  have hval : Rotator.NormalizeAxis (-180) = -180 := by
    unfold Rotator.NormalizeAxis
    rw [hf]
    norm_num
  rw [hval]
  simp

/-- Claim C2 (amended): because the axis/angle constructor maps the axis
components as `x = s * -Axis.z, y = s * -Axis.x, z = s * Axis.y, w =
cos(angle/2)`, the constructed quaternion's `RotateVector` fixes the
REMAPPED vector `(-Axis.z, -Axis.x, Axis.y)` exactly, for every axis and
angle; it does not in general fix the original axis vector. -/
theorem c2_axis_angle_fixes_mapped_axis (Axis : Vec3) (AngleRad : ℝ) :
    (Quat.fromAxisAngle Axis AngleRad).RotateVector ⟨-Axis.z, -Axis.x, Axis.y⟩ =
      ⟨-Axis.z, -Axis.x, Axis.y⟩ := by
  obtain ⟨ax, ay, az⟩ := Axis
  simp only [Quat.fromAxisAngle, Quat.RotateVector, Vector3D.cross, Vector3D.smul,
    Vector3D.add, Vector3D.mk.injEq]
  refine ⟨by ring, by ring, by ring⟩

/-- Counterexample for C2 as stated: for the unit axis `(1,0,0)` and angle
`pi`, `RotateVector` applied to the axis itself returns `(-1,0,0)`, which is
not the axis within tolerance `KINDA_SMALL_NUMBER`. -/
theorem c2_rotate_original_axis_counterexample :
    ¬ ((Quat.fromAxisAngle ⟨1, 0, 0⟩ Real.pi).RotateVector ⟨1, 0, 0⟩).Equals
        ⟨1, 0, 0⟩ KINDA_SMALL_NUMBER := by
  have hhalf : (0.5:ℝ) * Real.pi = Real.pi / 2 := by ring
  have hs : Real.sin (0.5 * Real.pi) = 1 := by rw [hhalf, Real.sin_pi_div_two]
  have hc : Real.cos (0.5 * Real.pi) = 0 := by rw [hhalf, Real.cos_pi_div_two]
  simp only [Quat.fromAxisAngle, Quat.RotateVector, Vector3D.cross, Vector3D.smul,
    Vector3D.add, Vector3D.Equals, hs, hc]
  intro hcon
  have h1 := hcon.1
  rw [abs_le] at h1
  have h2 := h1.1
  norm_num [KINDA_SMALL_NUMBER] at h2

/-- `Quat::Normalize` always produces an exactly unit quaternion in the real
model: the large-enough branch rescales by the exact inverse square root and
the degenerate branch returns the identity. -/
theorem sizeSquared_normalize (q : Quat) (tolerance : ℝ) (htol : 0 < tolerance) :
    (q.Normalize tolerance).SizeSquared = 1 := by
  obtain ⟨w, x, y, z⟩ := q
  unfold Quat.Normalize Quat.smul Quat.SizeSquared Math.InvSqrt Quat.Identity
  dsimp only
  split_ifs with h
  · have hs : 0 < w * w + x * x + y * y + z * z := lt_of_lt_of_le htol h
    have hnz : Real.sqrt (w * w + x * x + y * y + z * z) ≠ 0 := by positivity
    have hmul : Real.sqrt (w * w + x * x + y * y + z * z) *
        Real.sqrt (w * w + x * x + y * y + z * z) = w * w + x * x + y * y + z * z :=
      Real.mul_self_sqrt hs.le
    field_simp
  · norm_num

/-- `GetNormalized` leaves an exactly unit quaternion unchanged. -/
theorem getNormalized_of_unit (q : Quat) (h : q.SizeSquared = 1) :
    q.GetNormalized SMALL_NUMBER = q := by
  obtain ⟨w, x, y, z⟩ := q
  unfold Quat.GetNormalized Quat.Normalize Math.InvSqrt
  rw [h, Real.sqrt_one]
  rw [if_pos (by norm_num [SMALL_NUMBER])]
  simp [Quat.smul]

/-- The aligned `cosSum` of the slerp is non-negative. -/
theorem slerpCosSum_nonneg (q1 q2 : Quat) : 0 ≤ slerpCosSum q1 q2 := by
  unfold slerpCosSum
  split_ifs with h
  · exact h
  · linarith [not_le.mp h]

/-- In the sine-weighted branch the interpolation denominator
`sin(arccos cosSum)` is nonzero. -/
theorem slerp_sin_arccos_ne_zero (q1 q2 : Quat) (hb : slerpCosSum q1 q2 < DOT_THRESHOLD) :
    Real.sin (Real.arccos (slerpCosSum q1 q2)) ≠ 0 := by
  rw [Real.sin_arccos]
  have h0 := slerpCosSum_nonneg q1 q2
  have h1 : slerpCosSum q1 q2 < 1 := lt_of_lt_of_le hb (by norm_num [DOT_THRESHOLD])
  have h2 : slerpCosSum q1 q2 ^ 2 < 1 := by nlinarith
  exact ne_of_gt (Real.sqrt_pos.mpr (by linarith))

/-- `scale0` at `t = 0` is `1` in both branches. -/
theorem slerpScale0_zero (q1 q2 : Quat) : slerpScale0 q1 q2 0 = 1 := by
  unfold slerpScale0
  split_ifs with hb
  · rw [show (1:ℝ) - 0 = 1 by norm_num, one_mul]
    exact mul_one_div_cancel (slerp_sin_arccos_ne_zero q1 q2 hb)
  · norm_num

/-- Unflipped `scale1` at `t = 0` is `0` in both branches. -/
theorem slerpScale1Pre_zero (q1 q2 : Quat) : slerpScale1Pre q1 q2 0 = 0 := by
  unfold slerpScale1Pre
  split_ifs with hb
  · rw [zero_mul, Real.sin_zero, zero_mul]
  · rfl

/-- Flipped `scale1` at `t = 0` is `0`. -/
theorem slerpScale1_zero (q1 q2 : Quat) : slerpScale1 q1 q2 0 = 0 := by
  unfold slerpScale1
  rw [slerpScale1Pre_zero]
  split_ifs <;> norm_num

/-- `scale0` at `t = 1` is `0` in both branches. -/
theorem slerpScale0_one (q1 q2 : Quat) : slerpScale0 q1 q2 1 = 0 := by
  unfold slerpScale0
  split_ifs with hb
  · rw [show (1:ℝ) - 1 = 0 by norm_num, zero_mul, Real.sin_zero, zero_mul]
  · norm_num

/-- Unflipped `scale1` at `t = 1` is `1` in both branches. -/
theorem slerpScale1Pre_one (q1 q2 : Quat) : slerpScale1Pre q1 q2 1 = 1 := by
  unfold slerpScale1Pre
  split_ifs with hb
  · rw [one_mul]
    exact mul_one_div_cancel (slerp_sin_arccos_ne_zero q1 q2 hb)
  · rfl

/-- Claim C6 (amended): for normalized inputs, `Slerp(q1, q2, 0) = q1`
exactly; `Slerp(q1, q2, 1) = q2` exactly when the inner product is
non-negative, and `= -q2` (the same physical rotation, opposite sign) when
the inner product is negative, because the shorter-arc sign flip is baked
into the result; the result has exactly unit size for every `t`. -/
theorem c6_slerp_endpoints_and_norm (q1 q2 : Quat)
    (h1 : q1.SizeSquared = 1) (h2 : q2.SizeSquared = 1) :
    Quat.Slerp q1 q2 0 = q1 ∧
      (0 ≤ q1.dot q2 → Quat.Slerp q1 q2 1 = q2) ∧
      (q1.dot q2 < 0 → Quat.Slerp q1 q2 1 = q2.neg) ∧
      ∀ t : ℝ, (Quat.Slerp q1 q2 t).SizeSquared = 1 := by
  refine ⟨?_, fun hd => ?_, fun hd => ?_, fun t => ?_⟩
  · have hnn : Quat.Slerp_NotNormalized q1 q2 0 = q1 := by
      unfold Quat.Slerp_NotNormalized
      rw [slerpScale0_zero, slerpScale1_zero]
      obtain ⟨w, x, y, z⟩ := q1
      obtain ⟨w2, x2, y2, z2⟩ := q2
      simp [Quat.add, Quat.smul]
    unfold Quat.Slerp
    rw [hnn]
    exact getNormalized_of_unit q1 h1
  · have hnn : Quat.Slerp_NotNormalized q1 q2 1 = q2 := by
      unfold Quat.Slerp_NotNormalized slerpScale1
      rw [slerpScale0_one, slerpScale1Pre_one, if_pos hd]
      obtain ⟨w, x, y, z⟩ := q1
      obtain ⟨w2, x2, y2, z2⟩ := q2
      simp [Quat.add, Quat.smul]
    unfold Quat.Slerp
    rw [hnn]
    exact getNormalized_of_unit q2 h2
  · have hnn : Quat.Slerp_NotNormalized q1 q2 1 = q2.neg := by
      unfold Quat.Slerp_NotNormalized slerpScale1
      rw [slerpScale0_one, slerpScale1Pre_one, if_neg (not_le.mpr hd)]
      obtain ⟨w, x, y, z⟩ := q1
      obtain ⟨w2, x2, y2, z2⟩ := q2
      simp [Quat.add, Quat.smul, Quat.neg]
    unfold Quat.Slerp
    rw [hnn]
    refine getNormalized_of_unit _ ?_
    obtain ⟨w2, x2, y2, z2⟩ := q2
    unfold Quat.SizeSquared at h2
    unfold Quat.neg Quat.SizeSquared
    dsimp only at h2 ⊢
    linear_combination h2
  · unfold Quat.Slerp Quat.GetNormalized
    exact sizeSquared_normalize _ _ (by norm_num [SMALL_NUMBER])

/-- Witness for C6 at the unit quaternions `(1,0,0,0)` and `(0.6,0.8,0,0)`
(non-negative inner product). -/
theorem c6_slerp_endpoints_and_norm_witness :
    Quat.SizeSquared ⟨1, 0, 0, 0⟩ = 1 ∧ Quat.SizeSquared ⟨0.6, 0.8, 0, 0⟩ = 1 ∧
      (0:ℝ) ≤ (Quat.mk 1 0 0 0).dot ⟨0.6, 0.8, 0, 0⟩ ∧
      Quat.Slerp ⟨1, 0, 0, 0⟩ ⟨0.6, 0.8, 0, 0⟩ 0 = ⟨1, 0, 0, 0⟩ ∧
      Quat.Slerp ⟨1, 0, 0, 0⟩ ⟨0.6, 0.8, 0, 0⟩ 1 = ⟨0.6, 0.8, 0, 0⟩ ∧
      (Quat.Slerp ⟨1, 0, 0, 0⟩ ⟨0.6, 0.8, 0, 0⟩ 0.5).SizeSquared = 1 := by
  have h1 : Quat.SizeSquared ⟨1, 0, 0, 0⟩ = 1 := by norm_num [Quat.SizeSquared]
  have h2 : Quat.SizeSquared ⟨0.6, 0.8, 0, 0⟩ = 1 := by norm_num [Quat.SizeSquared]
  have hd : (0:ℝ) ≤ (Quat.mk 1 0 0 0).dot ⟨0.6, 0.8, 0, 0⟩ := by norm_num [Quat.dot]
  exact ⟨h1, h2, hd, (c6_slerp_endpoints_and_norm _ _ h1 h2).1,
    (c6_slerp_endpoints_and_norm _ _ h1 h2).2.1 hd,
    (c6_slerp_endpoints_and_norm _ _ h1 h2).2.2.2 0.5⟩

/-- Counterexample for C6 as stated: for the unit quaternions `(1,0,0,0)`
and `(-0.6,0.8,0,0)` (negative inner product), `Slerp(q1, q2, 1)` is
`(0.6,-0.8,0,0) = -q2`, which is not `q2` within tolerance. -/
theorem c6_slerp_endpoint_counterexample :
    ¬ (Quat.Slerp ⟨1, 0, 0, 0⟩ ⟨-0.6, 0.8, 0, 0⟩ 1).Equals ⟨-0.6, 0.8, 0, 0⟩
        KINDA_SMALL_NUMBER := by
  have hnn : Quat.Slerp_NotNormalized ⟨1, 0, 0, 0⟩ ⟨-0.6, 0.8, 0, 0⟩ 1 =
      ⟨0.6, -0.8, 0, 0⟩ := by
    unfold Quat.Slerp_NotNormalized slerpScale1
    rw [slerpScale0_one, slerpScale1Pre_one, if_neg (by norm_num [Quat.dot])]
    norm_num [Quat.add, Quat.smul]
  have hu : Quat.Slerp ⟨1, 0, 0, 0⟩ ⟨-0.6, 0.8, 0, 0⟩ 1 = ⟨0.6, -0.8, 0, 0⟩ := by
    unfold Quat.Slerp
    rw [hnn]
    exact getNormalized_of_unit _ (by norm_num [Quat.SizeSquared])
  rw [hu]
  intro hcon
  have hx := hcon.1
  norm_num [Math.FloatEqual, KINDA_SMALL_NUMBER, abs_lt] at hx

/-- `atan2f` applied to `(k sin t, k cos t)` with positive `k` recovers `t`
when `t` lies in `atan2f`'s range `(-pi, pi]`. -/
theorem atan2f_mul_cos_sin (k t : ℝ) (hk : 0 < k)
    (ht : t ∈ Set.Ioc (-Real.pi) Real.pi) :
    atan2f (k * Real.sin t) (k * Real.cos t) = t := by
  unfold atan2f
  have hmk : Complex.mk (k * Real.cos t) (k * Real.sin t) =
      (k : ℂ) * (Real.cos t + Real.sin t * Complex.I) := by
    rw [Complex.mk_eq_add_mul_I]
    push_cast
    ring
  rw [hmk, Complex.arg_real_mul _ hk, Complex.ofReal_cos, Complex.ofReal_sin]
  exact Complex.arg_cos_add_sin_mul_I ht

/-- `atan2f` applied to `(sin t, cos t)` for `t` in `(pi, 3 pi]` returns the
wrapped angle `t - 2 pi`. -/
theorem atan2f_cos_sin_sub_two_pi (t : ℝ) (h1 : Real.pi < t) (h2 : t ≤ 3 * Real.pi) :
    atan2f (Real.sin t) (Real.cos t) = t - 2 * Real.pi := by
  unfold atan2f
  have hmem : t - 2 * Real.pi ∈ Set.Ioc (-Real.pi) Real.pi := by
    constructor
    · linarith
    · linarith
  rw [Complex.mk_eq_add_mul_I, ← Real.cos_sub_two_pi t, ← Real.sin_sub_two_pi t,
    Complex.ofReal_cos, Complex.ofReal_sin]
  exact Complex.arg_cos_add_sin_mul_I hmem

/-- Singularity test of the Euler-built quaternion: `z*x - w*y` collapses to
`sin a * cos a` (with `a`, `b`, `c` the pitch/yaw/roll half-angles). -/
theorem eulerQuat_sing (a b c : ℝ) :
    (Real.cos c * Real.cos a * Real.sin b - Real.sin c * Real.sin a * Real.cos b) *
        (Real.cos c * Real.sin a * Real.sin b - Real.sin c * Real.cos a * Real.cos b) -
      (Real.cos c * Real.cos a * Real.cos b + Real.sin c * Real.sin a * Real.sin b) *
        (-(Real.cos c * Real.sin a * Real.cos b) - Real.sin c * Real.cos a * Real.sin b) =
      Real.sin a * Real.cos a := by
  linear_combination
    (Real.sin a * Real.cos a * (Real.sin c ^ 2 + Real.cos c ^ 2)) *
        Real.sin_sq_add_cos_sq b +
      (Real.sin a * Real.cos a) * Real.sin_sq_add_cos_sq c

/-- Yaw numerator of the Euler-built quaternion: `2 (w z + x y)` collapses
to `cos 2a * sin 2b`. -/
theorem eulerQuat_yawY (a b c : ℝ) :
    2 * ((Real.cos c * Real.cos a * Real.cos b + Real.sin c * Real.sin a * Real.sin b) *
          (Real.cos c * Real.cos a * Real.sin b - Real.sin c * Real.sin a * Real.cos b) +
        (Real.cos c * Real.sin a * Real.sin b - Real.sin c * Real.cos a * Real.cos b) *
          (-(Real.cos c * Real.sin a * Real.cos b) - Real.sin c * Real.cos a * Real.sin b)) =
      Real.cos (2 * a) * Real.sin (2 * b) := by
  rw [Real.cos_two_mul', Real.sin_two_mul]
  linear_combination
    (2 * Real.sin b * Real.cos b * (Real.cos a ^ 2 - Real.sin a ^ 2)) *
      Real.sin_sq_add_cos_sq c

/-- Yaw denominator of the Euler-built quaternion: `1 - 2 (y^2 + z^2)`
collapses to `cos 2a * cos 2b`. -/
theorem eulerQuat_yawX (a b c : ℝ) :
    1 - 2 * ((-(Real.cos c * Real.sin a * Real.cos b) - Real.sin c * Real.cos a * Real.sin b) *
          (-(Real.cos c * Real.sin a * Real.cos b) - Real.sin c * Real.cos a * Real.sin b) +
        (Real.cos c * Real.cos a * Real.sin b - Real.sin c * Real.sin a * Real.cos b) *
          (Real.cos c * Real.cos a * Real.sin b - Real.sin c * Real.sin a * Real.cos b)) =
      Real.cos (2 * a) * Real.cos (2 * b) := by
  rw [Real.cos_two_mul', Real.cos_two_mul']
  linear_combination
    (-2 * (Real.sin a ^ 2 * Real.cos b ^ 2 + Real.cos a ^ 2 * Real.sin b ^ 2)) *
        Real.sin_sq_add_cos_sq c +
      (-(Real.cos b ^ 2 + Real.sin b ^ 2)) * Real.sin_sq_add_cos_sq a +
      (-1 : ℝ) * Real.sin_sq_add_cos_sq b

/-- Roll numerator of the Euler-built quaternion: `-2 (w x + y z)` collapses
to `cos 2a * sin 2c`. -/
theorem eulerQuat_rollY (a b c : ℝ) :
    -2 * ((Real.cos c * Real.cos a * Real.cos b + Real.sin c * Real.sin a * Real.sin b) *
          (Real.cos c * Real.sin a * Real.sin b - Real.sin c * Real.cos a * Real.cos b) +
        (-(Real.cos c * Real.sin a * Real.cos b) - Real.sin c * Real.cos a * Real.sin b) *
          (Real.cos c * Real.cos a * Real.sin b - Real.sin c * Real.sin a * Real.cos b)) =
      Real.cos (2 * a) * Real.sin (2 * c) := by
  rw [Real.cos_two_mul', Real.sin_two_mul]
  linear_combination
    (2 * Real.cos c * Real.sin c * (Real.cos a ^ 2 - Real.sin a ^ 2)) *
      Real.sin_sq_add_cos_sq b

/-- Roll denominator of the Euler-built quaternion: `1 - 2 (x^2 + y^2)`
collapses to `cos 2a * cos 2c`. -/
theorem eulerQuat_rollX (a b c : ℝ) :
    1 - 2 * ((Real.cos c * Real.sin a * Real.sin b - Real.sin c * Real.cos a * Real.cos b) *
          (Real.cos c * Real.sin a * Real.sin b - Real.sin c * Real.cos a * Real.cos b) +
        (-(Real.cos c * Real.sin a * Real.cos b) - Real.sin c * Real.cos a * Real.sin b) *
          (-(Real.cos c * Real.sin a * Real.cos b) - Real.sin c * Real.cos a * Real.sin b)) =
      Real.cos (2 * a) * Real.cos (2 * c) := by
  rw [Real.cos_two_mul', Real.cos_two_mul']
  linear_combination
    (-2 * (Real.cos c ^ 2 * Real.sin a ^ 2 + Real.sin c ^ 2 * Real.cos a ^ 2)) *
        Real.sin_sq_add_cos_sq b +
      (-(Real.sin c ^ 2 + Real.cos c ^ 2)) * Real.sin_sq_add_cos_sq a +
      (-1 : ℝ) * Real.sin_sq_add_cos_sq c

/-- Evaluation of `GetRotator` in the non-singular branch: when the five
component combinations of `q` take the Euler form with half-angles `A`, `B`,
`C`, the pitch in `[-pi/2, pi/2]` with singularity test within threshold,
positive `cos 2A`, and `2B`, `2C` in `atan2f`'s range, the conversion
recovers the three doubled half-angles exactly (in radians, before the
degree conversion). -/
theorem getRotator_eq_of (q : Quat) (A B C : ℝ)
    (hsing : q.z * q.x - q.w * q.y = Real.sin A * Real.cos A)
    (hyY : 2 * (q.w * q.z + q.x * q.y) = Real.cos (2 * A) * Real.sin (2 * B))
    (hyX : 1 - 2 * (q.y * q.y + q.z * q.z) = Real.cos (2 * A) * Real.cos (2 * B))
    (hrY : -2 * (q.w * q.x + q.y * q.z) = Real.cos (2 * A) * Real.sin (2 * C))
    (hrX : 1 - 2 * (q.x * q.x + q.y * q.y) = Real.cos (2 * A) * Real.cos (2 * C))
    (hApos : 0 < Real.cos (2 * A))
    (hA1 : -(Real.pi / 2) ≤ 2 * A) (hA2 : 2 * A ≤ Real.pi / 2)
    (hsinA : |Real.sin (2 * A)| ≤ 2 * SINGULARITY_THRESHOLD)
    (hB : 2 * B ∈ Set.Ioc (-Real.pi) Real.pi)
    (hC : 2 * C ∈ Set.Ioc (-Real.pi) Real.pi) :
    q.GetRotator = ⟨RAD2DEG (2 * A), RAD2DEG (2 * B), RAD2DEG (2 * C)⟩ := by
  have habs := abs_le.mp hsinA
  have hs : q.z * q.x - q.w * q.y = Real.sin (2 * A) / 2 := by
    rw [hsing, Real.sin_two_mul]
    ring
  have hC1 : ¬(q.z * q.x - q.w * q.y < -SINGULARITY_THRESHOLD) := by
    rw [not_lt, hs]
    linarith [habs.1]
  have hC2 : ¬(SINGULARITY_THRESHOLD < q.z * q.x - q.w * q.y) := by
    rw [not_lt, hs]
    linarith [habs.2]
  unfold Quat.GetRotator
  rw [if_neg hC1, if_neg hC2]
  simp only [Rotator.mk.injEq]
  refine ⟨?_, ?_, ?_⟩
  · refine congrArg RAD2DEG ?_
    rw [hs, show 2 * (Real.sin (2 * A) / 2) = Real.sin (2 * A) by ring]
    exact Real.arcsin_sin hA1 hA2
  · refine congrArg RAD2DEG ?_
    rw [show 2 * (q.w * q.z + q.x * q.y) = Real.cos (2 * A) * Real.sin (2 * B) from hyY,
      show 1 - 2 * (q.y * q.y + q.z * q.z) = Real.cos (2 * A) * Real.cos (2 * B) from hyX]
    exact atan2f_mul_cos_sin _ _ hApos hB
  · refine congrArg RAD2DEG ?_
    rw [show -2 * (q.w * q.x + q.y * q.z) = Real.cos (2 * A) * Real.sin (2 * C) from hrY,
      show 1 - 2 * (q.x * q.x + q.y * q.y) = Real.cos (2 * A) * Real.cos (2 * C) from hrX]
    exact atan2f_mul_cos_sin _ _ hApos hC

/-- Claim C3 (amended): for every Euler triple with yaw and roll in
`[-180, 180]` degrees and pitch in `[-90, 90]` with the gimbal-lock
singularity test within threshold (`|sin(pitch in radians)| <= 0.999999`,
i.e. roughly 0.08 degrees away from the `+-90` poles), converting with
`Rotator::Quaternion` and back with `Quat::GetRotator` recovers the EXACT
triple in the real model.  Outside these ranges the recovered values only
agree modulo angle wrapping (see the counterexample at yaw 190), and at the
poles the degenerate branch applies. -/
theorem c3_euler_roundtrip_exact (p y r : ℝ) (hp : |p| ≤ 90)
    (hsin : |Real.sin (DEG2RAD p)| ≤ 0.999999) (hy : |y| ≤ 180) (hr : |r| ≤ 180) :
    (Rotator.mk p y r).Quaternion.GetRotator = Rotator.mk p y r := by
  have hPIval : PI = (3.1415926535 : ℝ) := rfl
  have hPIpos : (0:ℝ) < PI := by rw [hPIval]; norm_num
  have hPIlt : PI < Real.pi := by
    have h20 := Real.pi_gt_d20
    rw [hPIval]
    linarith
  obtain ⟨hp1, hp2⟩ := abs_le.mp hp
  obtain ⟨hy1, hy2⟩ := abs_le.mp hy
  obtain ⟨hr1, hr2⟩ := abs_le.mp hr
  have hppi : 0 ≤ (p + 90) * PI := mul_nonneg (by linarith) hPIpos.le
  have hppi2 : 0 ≤ (90 - p) * PI := mul_nonneg (by linarith) hPIpos.le
  have hypi : 0 ≤ (y + 180) * PI := mul_nonneg (by linarith) hPIpos.le
  have hypi2 : 0 ≤ (180 - y) * PI := mul_nonneg (by linarith) hPIpos.le
  have hrpi : 0 ≤ (r + 180) * PI := mul_nonneg (by linarith) hPIpos.le
  have hrpi2 : 0 ≤ (180 - r) * PI := mul_nonneg (by linarith) hPIpos.le
  have hA1 : -(Real.pi / 2) ≤ 2 * (p * (PI / 180 / 2)) := by
    nlinarith [hppi, hPIlt]
  have hA2 : 2 * (p * (PI / 180 / 2)) ≤ Real.pi / 2 := by
    nlinarith [hppi2, hPIlt]
  have hApos : 0 < Real.cos (2 * (p * (PI / 180 / 2))) := by
    apply Real.cos_pos_of_mem_Ioo
    constructor
    · nlinarith [hppi, hPIlt]
    · nlinarith [hppi2, hPIlt]
  have hsinA : |Real.sin (2 * (p * (PI / 180 / 2)))| ≤ 2 * SINGULARITY_THRESHOLD := by
    have he : DEG2RAD p = 2 * (p * (PI / 180 / 2)) := by
      unfold DEG2RAD PIOVER180
      ring
    rw [← he, show (2:ℝ) * SINGULARITY_THRESHOLD = 0.999999 by
      norm_num [SINGULARITY_THRESHOLD]]
    exact hsin
  have hBmem : 2 * (y * (PI / 180 / 2)) ∈ Set.Ioc (-Real.pi) Real.pi := by
    constructor
    · nlinarith [hypi, hPIlt]
    · nlinarith [hypi2, hPIlt]
  have hCmem : 2 * (r * (PI / 180 / 2)) ∈ Set.Ioc (-Real.pi) Real.pi := by
    constructor
    · nlinarith [hrpi, hPIlt]
    · nlinarith [hrpi2, hPIlt]
  have key := getRotator_eq_of ((Rotator.mk p y r).Quaternion)
      (p * (PI / 180 / 2)) (y * (PI / 180 / 2)) (r * (PI / 180 / 2))
      (eulerQuat_sing (p * (PI / 180 / 2)) (y * (PI / 180 / 2)) (r * (PI / 180 / 2)))
      (eulerQuat_yawY (p * (PI / 180 / 2)) (y * (PI / 180 / 2)) (r * (PI / 180 / 2)))
      (eulerQuat_yawX (p * (PI / 180 / 2)) (y * (PI / 180 / 2)) (r * (PI / 180 / 2)))
      (eulerQuat_rollY (p * (PI / 180 / 2)) (y * (PI / 180 / 2)) (r * (PI / 180 / 2)))
      (eulerQuat_rollX (p * (PI / 180 / 2)) (y * (PI / 180 / 2)) (r * (PI / 180 / 2)))
      hApos hA1 hA2 hsinA hBmem hCmem
  rw [key]
  have hgen : ∀ u : ℝ, RAD2DEG (2 * (u * (PI / 180 / 2))) = u := by
    intro u
    unfold RAD2DEG OVERPI
    calc 2 * (u * (PI / 180 / 2)) * (180 / PI) = u * (PI / PI) := by ring
    _ = u := by rw [div_self hPIpos.ne', mul_one]
  rw [hgen p, hgen y, hgen r]

/-- Witness for C3 at the Euler triple `(0, 45, 60)`. -/
theorem c3_euler_roundtrip_exact_witness :
    |(0:ℝ)| ≤ 90 ∧ |Real.sin (DEG2RAD 0)| ≤ 0.999999 ∧ |(45:ℝ)| ≤ 180 ∧
      |(60:ℝ)| ≤ 180 ∧
      (Rotator.mk (0:ℝ) 45 60).Quaternion.GetRotator = Rotator.mk (0:ℝ) 45 60 := by
  have h1 : |(0:ℝ)| ≤ 90 := by norm_num
  have h2 : |Real.sin (DEG2RAD 0)| ≤ 0.999999 := by
    have hz : DEG2RAD 0 = 0 := by
      unfold DEG2RAD
      exact zero_mul _
    rw [hz, Real.sin_zero]
    norm_num
  have h3 : |(45:ℝ)| ≤ 180 := by norm_num
  have h4 : |(60:ℝ)| ≤ 180 := by norm_num
  exact ⟨h1, h2, h3, h4, c3_euler_roundtrip_exact 0 45 60 h1 h2 h3 h4⟩

/-- Counterexample for C3 as stated: the Euler triple `(0, 190, 0)` has
pitch `0`, far from the `+-90` poles, yet the round trip recovers a yaw of
about `-170` degrees (the wrapped angle), not `190` within tolerance. -/
theorem c3_roundtrip_yaw_counterexample :
    ¬ Math.FloatEqual (Rotator.mk (0:ℝ) 190 0).Quaternion.GetRotator.yaw 190
        KINDA_SMALL_NUMBER := by
  have hPIval : PI = (3.1415926535 : ℝ) := rfl
  have hPIpos : (0:ℝ) < PI := by rw [hPIval]; norm_num
  have hPIlt : PI < Real.pi := by
    have h20 := Real.pi_gt_d20
    rw [hPIval]
    linarith
  have hQ : (Rotator.mk (0:ℝ) 190 0).Quaternion =
      ⟨Real.cos (190 * (PI / 180 / 2)), 0, 0, Real.sin (190 * (PI / 180 / 2))⟩ := by
    unfold Rotator.Quaternion
    norm_num
  have hgt : Real.pi < 190 * (PI / 180) := by
    rw [hPIval]
    linarith [Real.pi_lt_d2]
  have hle : 190 * (PI / 180) ≤ 3 * Real.pi := by
    linarith [hPIlt, Real.pi_pos]
  have hyaw : (Rotator.mk (0:ℝ) 190 0).Quaternion.GetRotator.yaw =
      RAD2DEG (190 * (PI / 180) - 2 * Real.pi) := by
    rw [hQ]
    unfold Quat.GetRotator
    rw [if_neg (by norm_num [SINGULARITY_THRESHOLD]),
      if_neg (by norm_num [SINGULARITY_THRESHOLD])]
    dsimp only
    refine congrArg RAD2DEG ?_
    have e1 : 2 * (Real.cos (190 * (PI / 180 / 2)) * Real.sin (190 * (PI / 180 / 2)) +
        0 * 0) = Real.sin (2 * (190 * (PI / 180 / 2))) := by
      rw [Real.sin_two_mul]
      ring
    have e2 : 1 - 2 * (0 * 0 + Real.sin (190 * (PI / 180 / 2)) *
        Real.sin (190 * (PI / 180 / 2))) = Real.cos (2 * (190 * (PI / 180 / 2))) := by
      rw [Real.cos_two_mul']
      linear_combination (-1 : ℝ) * Real.sin_sq_add_cos_sq (190 * (PI / 180 / 2))
    rw [e1, e2, show 2 * (190 * (PI / 180 / 2)) = 190 * (PI / 180) by ring]
    exact atan2f_cos_sin_sub_two_pi _ hgt hle
  intro hcon
  unfold Math.FloatEqual KINDA_SMALL_NUMBER at hcon
  rw [hyaw] at hcon
  unfold RAD2DEG OVERPI at hcon
  have heq : (190 * (PI / 180) - 2 * Real.pi) * (180 / PI) - 190 =
      -(360 * Real.pi / PI) := by
    calc (190 * (PI / 180) - 2 * Real.pi) * (180 / PI) - 190 =
        190 * (PI / PI) - 360 * Real.pi / PI - 190 := by ring
    _ = -(360 * Real.pi / PI) := by
        rw [div_self hPIpos.ne']
        ring
  rw [heq, abs_neg,
    abs_of_pos (div_pos (mul_pos (by norm_num) Real.pi_pos) hPIpos)] at hcon
  rw [div_lt_iff₀ hPIpos] at hcon
  rw [hPIval] at hcon
  linarith [Real.pi_gt_three, hcon]

/-- Claim C1 (amended): after any single PROPAGATING mutation of the bound
quaternion (assignment, compound arithmetic, scalar scaling or division),
the owner's rotator fields are overwritten with `GetRotator()` of the
quaternion and the composed matrix is recomputed as
`Translate * (RotatorMatrix * Scale)` from the EULER rotator's matrix form,
not from the quaternion; symmetrically, rotator mutations propagate through
`Quaternion()`.  `Quat::Normalize`, however, does NOT update the owner in
its non-degenerate branch, and agreement of the two representations on the
physical rotation is not guaranteed when the mutated quaternion is not unit
(see the counterexample). -/
theorem c1_sync_protocol (t : Transform) (q : Quat) (r : Rotator) (c dp dy dr : ℝ) :
    (t.quatAssign q).SyncedFromQuat ∧
      (t.quatAddAssign q).SyncedFromQuat ∧
      (t.quatSubAssign q).SyncedFromQuat ∧
      (t.quatMulAssign q).SyncedFromQuat ∧
      (t.quatScaleAssign c).SyncedFromQuat ∧
      (t.quatDivAssign c).SyncedFromQuat ∧
      (t.rotatorAssign r).SyncedFromRotator ∧
      (t.rotatorAddAssign r).SyncedFromRotator ∧
      (t.rotatorSubAssign r).SyncedFromRotator ∧
      (t.rotatorScaleAssign c).SyncedFromRotator ∧
      (t.rotatorAdd dp dy dr).SyncedFromRotator ∧
      (SMALL_NUMBER ≤ t.rotation.SizeSquared →
        (t.quatNormalize SMALL_NUMBER).rotator = t.rotator ∧
          (t.quatNormalize SMALL_NUMBER).mtx = t.mtx) := by
  refine ⟨⟨rfl, rfl⟩, ⟨rfl, rfl⟩, ⟨rfl, rfl⟩, ⟨rfl, rfl⟩, ⟨rfl, rfl⟩, ⟨rfl, rfl⟩,
    ⟨rfl, rfl⟩, ⟨rfl, rfl⟩, ⟨rfl, rfl⟩, ⟨rfl, rfl⟩, ⟨rfl, rfl⟩, fun hp => ?_⟩
  unfold Transform.quatNormalize
  rw [if_pos hp]
  exact ⟨rfl, rfl⟩

/-- Witness for C1 at a concrete transform whose bound quaternion is the
identity (size 1, so the non-degenerate normalize branch applies). -/
theorem c1_sync_protocol_witness :
    SMALL_NUMBER ≤
        (Transform.mk ⟨0, 0, 0⟩ ⟨1, 1, 1⟩ Quat.Identity Rotator.ZeroRotator
          1).rotation.SizeSquared ∧
      ((Transform.mk ⟨0, 0, 0⟩ ⟨1, 1, 1⟩ Quat.Identity Rotator.ZeroRotator
            1).quatNormalize SMALL_NUMBER).rotator =
        (Transform.mk ⟨0, 0, 0⟩ ⟨1, 1, 1⟩ Quat.Identity Rotator.ZeroRotator 1).rotator ∧
      ((Transform.mk ⟨0, 0, 0⟩ ⟨1, 1, 1⟩ Quat.Identity Rotator.ZeroRotator
          1).quatScaleAssign 2).SyncedFromQuat := by
  have hp : SMALL_NUMBER ≤
      (Transform.mk ⟨0, 0, 0⟩ ⟨1, 1, 1⟩ Quat.Identity Rotator.ZeroRotator
        1).rotation.SizeSquared := by
    norm_num [Quat.SizeSquared, Quat.Identity, SMALL_NUMBER]
  exact ⟨hp,
    ((c1_sync_protocol _ Quat.Identity Rotator.ZeroRotator 2 0 0
        0).2.2.2.2.2.2.2.2.2.2.2 hp).1,
    (c1_sync_protocol _ Quat.Identity Rotator.ZeroRotator 2 0 0 0).2.2.2.2.1⟩

/-- The state reached by assigning the unit quaternion
`(sqrt 2 / 2, sqrt 2 / 2, 0, 0)` to a fresh transform's bound quaternion
(making both representations consistent) and then applying the single
mutating operation `*= 2.0` to the bound quaternion. -/
def c1State : Transform :=
  Transform.quatScaleAssign
    (Transform.quatAssign
      ⟨⟨0, 0, 0⟩, ⟨1, 1, 1⟩, Quat.Identity, Rotator.ZeroRotator, 1⟩
      ⟨Real.sqrt 2 / 2, Real.sqrt 2 / 2, 0, 0⟩) 2

/-- Counterexample for C1 as stated: after the single mutating operation
`*= 2.0` on a bound unit quaternion, the owner's rotator and the (re-)
normalized quaternion no longer agree on the physical rotation: they rotate
the vector `(0,1,0)` to `(-4/5, -3/5, 0)` and `(0, 0, 1)` respectively,
which differ far beyond tolerance. -/
theorem c1_physical_agreement_counterexample :
    ¬ Vector3D.Equals (c1State.rotator.RotateVector ⟨0, 1, 0⟩)
        ((c1State.rotation.GetNormalized SMALL_NUMBER).RotateVector ⟨0, 1, 0⟩)
        KINDA_SMALL_NUMBER := by
  have hPIpos : (0:ℝ) < PI := by norm_num [PI]
  have h22 : Real.sqrt 2 * Real.sqrt 2 = 2 := Real.mul_self_sqrt (by norm_num)
  have hq2 : Quat.mk (Real.sqrt 2 / 2 * 2) (Real.sqrt 2 / 2 * 2) ((0:ℝ) * 2) ((0:ℝ) * 2) =
      ⟨Real.sqrt 2, Real.sqrt 2, 0, 0⟩ := by
    simp only [Quat.mk.injEq]
    exact ⟨by ring, by ring, by norm_num, by norm_num⟩
  have hrot : c1State.rotation = ⟨Real.sqrt 2, Real.sqrt 2, 0, 0⟩ := hq2
  have hrotator : c1State.rotator = Quat.GetRotator ⟨Real.sqrt 2, Real.sqrt 2, 0, 0⟩ := by
    show Quat.GetRotator
        (Quat.mk (Real.sqrt 2 / 2 * 2) (Real.sqrt 2 / 2 * 2) ((0:ℝ) * 2) ((0:ℝ) * 2)) = _
    rw [hq2]
  -- evaluate GetRotator of the doubled quaternion
  have hget : Quat.GetRotator ⟨Real.sqrt 2, Real.sqrt 2, 0, 0⟩ =
      ⟨0, 0, RAD2DEG (atan2f (-4) (-3))⟩ := by
    unfold Quat.GetRotator
    rw [if_neg (by norm_num [SINGULARITY_THRESHOLD]),
      if_neg (by norm_num [SINGULARITY_THRESHOLD])]
    simp only [Rotator.mk.injEq]
    refine ⟨?_, ?_, ?_⟩
    · rw [show 2 * ((0:ℝ) * Real.sqrt 2 - Real.sqrt 2 * 0) = 0 by ring, Real.arcsin_zero]
      unfold RAD2DEG
      exact zero_mul _
    · rw [show 2 * (Real.sqrt 2 * 0 + Real.sqrt 2 * 0) = (0:ℝ) by ring,
        show 1 - 2 * ((0:ℝ) * 0 + 0 * 0) = 1 by norm_num]
      have h01 : atan2f 0 1 = 0 := by
        unfold atan2f
        rw [show Complex.mk 1 0 = (1:ℂ) from rfl]
        exact Complex.arg_one
      rw [h01]
      unfold RAD2DEG
      exact zero_mul _
    · rw [show -2 * (Real.sqrt 2 * Real.sqrt 2 + 0 * 0) =
          -2 * (Real.sqrt 2 * Real.sqrt 2) by ring,
        show 1 - 2 * (Real.sqrt 2 * Real.sqrt 2 + 0 * 0) =
          1 - 2 * (Real.sqrt 2 * Real.sqrt 2) by ring, h22]
      norm_num
  -- cos and sin of the recovered roll angle
  have hzne : Complex.mk (-3) (-4) ≠ 0 := by
    intro h
    have := congrArg Complex.re h
    norm_num at this
  have habs : Complex.abs ⟨-3, -4⟩ = 5 := by
    rw [Complex.abs_apply, Complex.normSq_mk]
    rw [show (-3:ℝ) * -3 + -4 * -4 = 25 by norm_num, show (25:ℝ) = 5 ^ 2 by norm_num,
      Real.sqrt_sq (by norm_num)]
  have hcosr : Real.cos (atan2f (-4) (-3)) = -3 / 5 := by
    unfold atan2f
    rw [Complex.cos_arg hzne, habs]
  have hsinr : Real.sin (atan2f (-4) (-3)) = -4 / 5 := by
    unfold atan2f
    rw [Complex.sin_arg, habs]
  have hconv : DEG2RAD (-(RAD2DEG (atan2f (-4) (-3)))) = -(atan2f (-4) (-3)) := by
    unfold DEG2RAD RAD2DEG PIOVER180 OVERPI
    calc -(atan2f (-4) (-3) * (180 / PI)) * (PI / 180) =
        -(atan2f (-4) (-3) * (PI / PI)) := by ring
    _ = -(atan2f (-4) (-3)) := by
        rw [div_self hPIpos.ne']
        ring
  have h0 : DEG2RAD 0 = 0 := by
    unfold DEG2RAD
    exact zero_mul _
  -- the rotator's action on (0,1,0)
  have hract : (Rotator.mk (0:ℝ) 0 (RAD2DEG (atan2f (-4) (-3)))).RotateVector ⟨0, 1, 0⟩ =
      ⟨-4 / 5, -3 / 5, 0⟩ := by
    unfold Rotator.RotateVector Rotator.Matrix Matrix3x3.mulVec
    rw [hconv, Real.sin_neg, Real.cos_neg, hcosr, hsinr]
    rw [h0, Real.sin_zero, Real.cos_zero]
    simp only [Vector3D.mk.injEq]
    norm_num
  -- the normalized quaternion and its action on (0,1,0)
  have hssq : Quat.SizeSquared ⟨Real.sqrt 2, Real.sqrt 2, 0, 0⟩ = 4 := by
    unfold Quat.SizeSquared
    dsimp only
    rw [h22]
    norm_num
  have hnorm : (Quat.mk (Real.sqrt 2) (Real.sqrt 2) 0 0).GetNormalized SMALL_NUMBER =
      ⟨Real.sqrt 2 / 2, Real.sqrt 2 / 2, 0, 0⟩ := by
    unfold Quat.GetNormalized Quat.Normalize Math.InvSqrt
    rw [hssq]
    rw [if_pos (by norm_num [SMALL_NUMBER])]
    rw [show (4:ℝ) = 2 ^ 2 by norm_num, Real.sqrt_sq (by norm_num : (0:ℝ) ≤ 2)]
    simp only [Quat.smul, Quat.mk.injEq]
    refine ⟨by ring, by ring, by norm_num, by norm_num⟩
  have hqact : (Quat.mk (Real.sqrt 2 / 2) (Real.sqrt 2 / 2) 0 0).RotateVector ⟨0, 1, 0⟩ =
      ⟨0, 0, 1⟩ := by
    unfold Quat.RotateVector Vector3D.cross Vector3D.smul Vector3D.add
    simp only [Vector3D.mk.injEq]
    refine ⟨by ring, ?_, ?_⟩
    · linear_combination (-1 / 2 : ℝ) * h22
    · linear_combination (1 / 2 : ℝ) * h22
  -- assemble and refute the tolerance comparison
  rw [hrotator, hget, hract, hrot, hnorm, hqact]
  intro hcon
  have hz := hcon.2.2
  norm_num [KINDA_SMALL_NUMBER] at hz

end

end SNova
